import Mathlib

/-!
Verification of the calendar grid layout and time-positioning engine of the
JCI Zoom meeting dashboard.

The engine lives in src/components/CalendarView.tsx (current revision; an
earlier revision of the same component is in src/unnamed/part_000),
src/components/ListView.tsx and src/utils/timezone.ts.  JavaScript Date
values are modelled as integers: an instant is its count of minutes since
the Unix epoch, and a civil calendar day is its count of days since
1970-01-01 (so 1970-01-01 is day 0, a Thursday).  The proleptic Gregorian
calendar arithmetic performed by the JavaScript engine (Date field getters
and setters, MakeDay, and Intl formatting in a fixed zone) is modelled by
the standard era-based conversion between day numbers and (year, month,
day) triples, verified below to be a faithful bijection on valid civil
dates.  The application timezone Asia/Kuala_Lumpur is the fixed offset
UTC+8, i.e. 480 minutes.
-/

set_option maxHeartbeats 1000000

/-! ## Platform model: proleptic Gregorian calendar arithmetic -/

/-- Day count since 1970-01-01 of the civil date (y, m, d), proleptic
Gregorian.  Matches the ECMAScript MakeDay operation: the day-of-month d
may lie outside the nominal range of month m, in which case the result
overflows into neighbouring months (the expression is linear in d). -/
def daysFromCivil (y m d : Int) : Int :=
  let y2 := if m ≤ 2 then y - 1 else y
  let era := y2 / 400
  let yoe := y2 - era * 400
  let mp := if 2 < m then m - 3 else m + 9
  let doy := (153 * mp + 2) / 5 + d - 1
  let doe := yoe * 365 + yoe / 4 - yoe / 100 + doy
  era * 146097 + doe - 719468

/-- Inverse of daysFromCivil: the (year, month, day) triple of a day
number, proleptic Gregorian.  Models what the JavaScript engine computes
for Date field getters and fixed-zone Intl formatting. -/
def civilFromDays (z : Int) : Int × Int × Int :=
  let n := z + 719468
  let era := n / 146097
  let doe := n % 146097
  let yoe := (doe - doe / 1460 + doe / 36524 - doe / 146096) / 365
  let y := yoe + era * 400
  let doy := doe - (365 * yoe + yoe / 4 - yoe / 100)
  let mp := (5 * doy + 2) / 153
  let d := doy - (153 * mp + 2) / 5 + 1
  let m := if mp < 10 then mp + 3 else mp - 9
  (if m ≤ 2 then y + 1 else y, m, d)

/-- Gregorian leap-year test. -/
def isLeap (y : Int) : Bool := y % 4 == 0 && (y % 100 != 0 || y % 400 == 0)

/-- Number of days in month m of year y. -/
def daysInMonth (y m : Int) : Int :=
  if m = 2 then (if isLeap y then 29 else 28)
  else if m = 4 ∨ m = 6 ∨ m = 9 ∨ m = 11 then 30 else 31

/-- A (year, month, day) triple that names an actual calendar day. -/
def validCivil (y m d : Int) : Prop :=
  1 ≤ m ∧ m ≤ 12 ∧ 1 ≤ d ∧ d ≤ daysInMonth y m

instance (y m d : Int) : Decidable (validCivil y m d) := by
  unfold validCivil; infer_instance

/-- Numerator of the year-of-era formula of civilFromDays (Nat copy used
for its exhaustive verification at year boundaries). -/
def yoeNum (x : Nat) : Nat := x - x / 1460 + x / 36524 - x / 146096

/-- Year-of-era formula of civilFromDays, Nat copy. -/
def yoeOfN (x : Nat) : Nat := yoeNum x / 365

/-- Cumulative day count before era-year y; the y / 400 term contributes
only for y = 400 and closes the 146097-day era. -/
def yearStart (y : Nat) : Nat := 365 * y + y / 4 - y / 100 + y / 400

/-- Boundary check: at the first and last day of each era-year, the
year-of-era formula returns exactly that year. -/
def yearEndpointCheck (y : Nat) : Bool :=
  if y ≥ 400 then true
  else yoeOfN (yearStart y) == y && yoeOfN (yearStart (y + 1) - 1) == y

/-- Length check: each era-year y spans 366 days when the civil year it
yields (era-relative y + 1) is leap, else 365 days. -/
def yearLenCheck (y : Nat) : Bool :=
  if y ≥ 400 then true
  else if (y + 1) % 4 == 0 && ((y + 1) % 100 != 0 || y + 1 == 400)
    then yearStart (y + 1) == yearStart y + 366
    else yearStart (y + 1) == yearStart y + 365

/-- Balanced conjunction of f over the range from lo of width 2 ^ d,
shaped so the kernel can evaluate it without deep recursion. -/
def checkTree (f : Nat → Bool) : Nat → Nat → Bool
  | 0, lo => f lo
  | d + 1, lo => checkTree f d lo && checkTree f d (lo + 2 ^ d)

/-! ## Model of src/utils/timezone.ts

Instants are minutes since the Unix epoch.  The app timezone
Asia/Kuala_Lumpur has had the fixed offset UTC+8 (480 minutes) with no
daylight saving throughout the modelled range. -/

/-- Modern fixed offset of the app timezone, minutes east of UTC: the
offset Asia/Kuala_Lumpur has used since 1982, and the offset the
parseAsAppTz template hard-codes as the string "+08:00". -/
def APP_TIMEZONE_OFFSET : Int := 480

/-- Civil day number of an instant under the fixed modern +08:00 offset.
This is the day the hard-coded "+08:00" of parseAsAppTz refers to; Intl
formatting of pre-1982 instants uses the earlier historical offsets,
modelled by klOffsetAt below. -/
def klDayOf (t : Int) : Int := (t + APP_TIMEZONE_OFFSET) / 1440

/-- Minutes past midnight of an instant under the fixed modern +08:00
offset (same caveat as klDayOf for pre-1982 instants). -/
def klMinuteOf (t : Int) : Int := (t + APP_TIMEZONE_OFFSET) % 1440

/-- UTC offset, in displayed minutes, that Intl formatting with timeZone
Asia/Kuala_Lumpur applies at an instant, following the IANA tz database:
LMT +6:46:46 until 1901, Singapore mean time +6:55:25 until 1905-06-01,
+7:00 until 1933, +7:20 until 1941-09-01, +7:30 until 1942-02-16, +9:00
until 1945-09-12, +7:30 until 1982-01-01, then +8:00.  Each cutover is
at local midnight of the zone being left, converted here to the first
whole UTC minute inside the new zone; the two sub-minute offsets 6:46:46
and 6:55:25 floor to 406 and 415 displayed minutes, which is exact for
the HH:mm and date fields of every minute-aligned instant because the
odd 46 and 25 seconds never carry a minute-aligned time across a minute
boundary. -/
def klOffsetAt (t : Int) : Int :=
  if t < daysFromCivil 1901 1 1 * 1440 - 406 then 406
  else if t < daysFromCivil 1905 6 1 * 1440 - 415 then 415
  else if t < daysFromCivil 1933 1 1 * 1440 - 420 then 420
  else if t < daysFromCivil 1941 9 1 * 1440 - 440 then 440
  else if t < daysFromCivil 1942 2 16 * 1440 - 450 then 450
  else if t < daysFromCivil 1945 9 12 * 1440 - 540 then 540
  else if t < daysFromCivil 1982 1 1 * 1440 - 450 then 450
  else 480

/-- Decimal digit character, as produced by JavaScript number
formatting (codepoint 48 + digit). -/
def digitChar (n : Nat) : Char := Char.ofNat (48 + n % 10)

/-- Value of a decimal digit character; anything else is not a digit. -/
def digitVal (c : Char) : Option Nat :=
  if '0' ≤ c ∧ c ≤ '9' then some (c.toNat - 48) else none

/-- Two-digit zero-padded rendering (padStart(2, "0") and en-CA 2-digit
fields). -/
def fmt2 (n : Nat) : List Char := [digitChar (n / 10 % 10), digitChar (n % 10)]

/-- Four-digit rendering of a year in 1000..9999 (en-CA numeric year). -/
def fmt4 (n : Nat) : List Char :=
  [digitChar (n / 1000 % 10), digitChar (n / 100 % 10),
   digitChar (n / 10 % 10), digitChar (n % 10)]

/-- Model of toLocaleDateString("en-CA", timeZone Asia/Kuala_Lumpur): the
YYYY-MM-DD rendering of the civil date of the instant under the
historical offset the zone used at that instant. -/
def klDateString (t : Int) : String :=
  let c := civilFromDays ((t + klOffsetAt t) / 1440)
  String.mk (fmt4 c.1.toNat ++ '-' :: fmt2 c.2.1.toNat ++ '-' :: fmt2 c.2.2.toNat)

/-- Model of the HH:mm part of toLocaleTimeString("en-CA", hour12 false,
2-digit fields, timeZone Asia/Kuala_Lumpur), hour cycle h23, under the
instant's historical offset, composed with the split/pad step of
utcToAppTz (an identity on this shape). -/
def klTimeString (t : Int) : String :=
  String.mk (fmt2 (((t + klOffsetAt t) % 1440) / 60).toNat ++ ':' ::
    fmt2 (((t + klOffsetAt t) % 1440) % 60).toNat)

/-- Model of utcToAppTz of src/utils/timezone.ts on an already-parsed UTC
instant (parseAsUtc maps the ISO string to this instant): the (date,
startTime) civil pair in the app timezone. -/
def utcToAppTz (t : Int) : String × String := (klDateString t, klTimeString t)

/-- Two-digit numeral. -/
def parse2 (a b : Char) : Option Nat :=
  match digitVal a, digitVal b with
  | some x, some y => some (10 * x + y)
  | _, _ => none

/-- Four-digit numeral. -/
def parse4 (a b c d : Char) : Option Nat :=
  match parse2 a b, parse2 c d with
  | some x, some y => some (100 * x + y)
  | _, _ => none

/-- Date part of the ECMAScript Date Time String Format: YYYY, YYYY-MM or
YYYY-MM-DD, with month and day-of-month validated against the calendar
(engines reject out-of-range fields with an Invalid Date).  Omitted month
and day default to 01.  The extended six-digit-year forms are left out of
the model; they would only enlarge the set of accepted inputs. -/
def parseDateES (cs : List Char) : Option (Int × Int × Int) :=
  match cs with
  | [a, b, c, d] =>
    match parse4 a b c d with
    | some y => some ((y : Int), 1, 1)
    | none => none
  | [a, b, c, d, '-', e, f] =>
    match parse4 a b c d, parse2 e f with
    | some y, some m =>
      if 1 ≤ m ∧ m ≤ 12 then some ((y : Int), (m : Int), 1) else none
    | _, _ => none
  | [a, b, c, d, '-', e, f, '-', g, h] =>
    match parse4 a b c d, parse2 e f, parse2 g h with
    | some y, some m, some dd =>
      if 1 ≤ m ∧ m ≤ 12 ∧ 1 ≤ dd ∧ (dd : Int) ≤ daysInMonth (y : Int) (m : Int)
        then some ((y : Int), (m : Int), (dd : Int)) else none
    | _, _, _ => none
  | _ => none

/-- startTime shapes accepted once the source template appends ":00+08:00":
HH:mm (seconds become 00) and bare HH (minutes become 00).  Hour 24 is
accepted by the ECMAScript grammar only with zero minutes and seconds and
denotes midnight at the end of the day.  Result: minutes past local
midnight. -/
def parseTimeFrag (cs : List Char) : Option Int :=
  match cs with
  | [a, b] =>
    match parse2 a b with
    | some h => if h ≤ 24 then some ((h : Int) * 60) else none
    | none => none
  | [a, b, ':', c, d] =>
    match parse2 a b, parse2 c d with
    | some h, some mi =>
      if (h ≤ 23 ∧ mi ≤ 59) ∨ (h = 24 ∧ mi = 0)
        then some ((h : Int) * 60 + (mi : Int)) else none
    | _, _ => none
  | _ => none

/-- Model of parseAsAppTz of src/utils/timezone.ts: the ECMAScript parse
of the template date ++ "T" ++ startTime ++ ":00+08:00"; an Invalid Date
is none.  A successful parse denotes the instant of the written civil
fields under the fixed +08:00 offset. -/
def parseAsAppTz (date startTime : String) : Option Int :=
  match parseDateES date.data, parseTimeFrag startTime.data with
  | some c, some mins =>
    some (daysFromCivil c.1 c.2.1 c.2.2 * 1440 + mins - APP_TIMEZONE_OFFSET)
  | _, _ => none

/-! ## Model of src/components/CalendarView.tsx -/

/-- Grid start hour of the current revision (8, i.e. 08:00). -/
def START_HOUR : ℚ := 8

/-- Pixel height of one hour cell in the current revision. -/
def CELL_HEIGHT : ℚ := 44

/-- getMeetingStyle (lines 67-77): {top, height} in pixels of a meeting
block, from the split startTime components and durationMinutes. -/
def getMeetingStyle (hours minutes durationMinutes : ℚ) : ℚ × ℚ :=
  ((hours - START_HOUR) * CELL_HEIGHT + (minutes / 60) * CELL_HEIGHT,
   (durationMinutes / 60) * CELL_HEIGHT)

/-- Inline top-offset expression of the live now indicator (line 155). -/
def nowIndicatorTop (hours minutes : ℚ) : ℚ :=
  (hours - START_HOUR) * CELL_HEIGHT + (minutes / 60) * CELL_HEIGHT

/-- Reference formula of the specification: verticalOffset(hour, minute,
startHour, cellHeightPx). -/
def verticalOffset (hour minute startHour cellHeightPx : ℚ) : ℚ :=
  (hour - startHour) * cellHeightPx + (minute / 60) * cellHeightPx

/-- Reference formula of the specification: blockHeight(durationMinutes,
cellHeightPx). -/
def blockHeight (durationMinutes cellHeightPx : ℚ) : ℚ :=
  (durationMinutes / 60) * cellHeightPx

/-- JavaScript getDay of a civil day number: 0 = Sunday; day 0
(1970-01-01) is a Thursday. -/
def jsGetDay (n : Int) : Int := (n + 4) % 7

/-- getStartOfWeek (lines 26-31, identical in the earlier revision): the
Monday on or before the given local civil day; the setDate call reduces
to day arithmetic. -/
def getStartOfWeek (n : Int) : Int :=
  n - (if jsGetDay n = 0 then 6 else jsGetDay n - 1)

/-- weekDays (lines 34-38): the 7 consecutive days from the Monday. -/
def weekDays (n : Int) : List Int :=
  (List.range 7).map (fun i : Nat => getStartOfWeek n + (i : Int))

/-- monthDays (lines 42-53): 42-cell window of the month of the local
civil date (y, m); grid starts padStart days before the first of the
month, padStart = 6 for a Sunday start else weekday - 1. -/
def monthDays (y m : Int) : List Int :=
  let start := daysFromCivil y m 1
  let dayOfWeek := jsGetDay start
  let padStart := if dayOfWeek = 0 then 6 else dayOfWeek - 1
  (List.range 42).map (fun i : Nat => start - padStart + (i : Int))

/-- View mode of the calendar component. -/
inductive CalendarMode
  | week
  | month
deriving DecidableEq

/-- navigate (lines 55-60): the cursor is the local civil day number of
currentDate; week mode adds 7 * delta days (setDate), month mode applies
setMonth(getMonth() + delta), i.e. MakeDay on the normalized month with
the raw day-of-month field kept (which can overflow into the next
month). -/
def navigate (cursor : Int) (mode : CalendarMode) (delta : Int) : Int :=
  match mode with
  | .week => cursor + delta * 7
  | .month =>
    let c := civilFromDays cursor
    let mon0 := c.2.1 - 1 + delta
    daysFromCivil (c.1 + mon0 / 12) (mon0 % 12 + 1) c.2.2

/-- Month window actually rendered for a cursor day number (startOfMonth
is taken from the cursor via getFullYear/getMonth). -/
def monthDaysOfCursor (cursor : Int) : List Int :=
  monthDays (civilFromDays cursor).1 (civilFromDays cursor).2.1

/-- toLocalDateKey (line 64): date key of an instant, formatted en-CA in
the app timezone; modelled as the day number under the fixed modern
+08:00 offset, on which the YYYY-MM-DD rendering is injective.  The
column-equality claims proved below compare this same function across
two runs, so they are insensitive to the zone's pre-1982 offsets. -/
def toLocalDateKey (t : Int) : Int := klDayOf t

/-- Week-mode day-column keys produced by one render of the current
revision, as a function of the cursor initialization (today in the app
timezone, anchored at T12:00:00+08:00, line 23) and the runtime local
timezone offset in minutes east of UTC: getStartOfWeek and the seven
setDate steps run on the local civil representation of the cursor
instant, and each column is keyed by toLocalDateKey. -/
def weekColumnKeys (klToday off : Int) : List Int :=
  let t := klToday * 1440 + 720 - APP_TIMEZONE_OFFSET
  let localDay := (t + off) / 1440
  let shift := if jsGetDay localDay = 0 then 6 else jsGetDay localDay - 1
  (List.range 7).map (fun i : Nat => toLocalDateKey (t + ((i : Int) - shift) * 1440))

/-- Meeting record (src/types): only the fields the calendar core reads. -/
structure Meeting where
  id : String
  title : String
  date : String
  startTime : String
  durationMinutes : Int
  category : String
deriving DecidableEq

/-- External callbacks the calendar can fire. -/
inductive CallbackEvent
  | onDelete (id : String)
  | onEdit (id : String)
deriving DecidableEq

/-- View-local state of the calendar component (line 22-24). -/
structure CalendarViewState where
  mode : CalendarMode
  currentDate : Int
  selectedMeeting : Option Meeting

/-- Click on the delete action of the detail modal (line 245): when a
meeting is selected, the external onDelete fires with its id and then the
selection is cleared in the same handler; with no selection the modal is
not rendered.  First component: the external callbacks fired, in
order. -/
def modalDeleteClick (s : CalendarViewState) : List CallbackEvent × CalendarViewState :=
  match s.selectedMeeting with
  | none => ([], s)
  | some m => ([CallbackEvent.onDelete m.id], { s with selectedMeeting := none })

/-- Click on the edit action of the detail modal (line 246): the wrapper
exists only when the onEdit prop is provided (hasOnEdit); it fires onEdit
with the selected id and clears the selection. -/
def modalEditClick (hasOnEdit : Bool) (s : CalendarViewState) :
    List CallbackEvent × CalendarViewState :=
  match s.selectedMeeting with
  | none => ([], s)
  | some m =>
    if hasOnEdit then ([CallbackEvent.onEdit m.id], { s with selectedMeeting := none })
    else ([], s)

/-! ## Model of src/components/ListView.tsx -/

/-- Sort key of the list view: the parseAsAppTz instant of a meeting
(getTime of the parsed Date).  The default value for an unparseable
meeting never matters under the well-formedness hypothesis used below. -/
def sortKey (m : Meeting) : Int := (parseAsAppTz m.date m.startTime).getD 0

/-- sorted (lines 13-17): a stable sort of a copy of the collection,
ascending by instant; ECMAScript sort is required to be stable and the
comparator da - db orders by the instants. -/
def sorted (meetings : List Meeting) : List Meeting :=
  meetings.mergeSort (fun a b => sortKey a ≤ sortKey b)

/-! ## Platform model lemmas -/

theorem checkTree_spec (f : Nat → Bool) :
    ∀ d lo, checkTree f d lo = true → ∀ i, i < 2 ^ d → f (lo + i) = true := by
  intro d
  induction d with
  | zero => intro lo h i hi; interval_cases i; simpa using h
  | succ d ih =>
    intro lo h i hi
    simp only [checkTree, Bool.and_eq_true] at h
    by_cases hc : i < 2 ^ d
    · exact ih lo h.1 i hc
    · have h2 := ih (lo + 2 ^ d) h.2 (i - 2 ^ d) (by simp [pow_succ] at hi; omega)
      have h3 : lo + 2 ^ d + (i - 2 ^ d) = lo + i := by omega
      rwa [h3] at h2

theorem yoeNum_step (a : Nat) : yoeNum a ≤ yoeNum (a + 1) := by
  simp only [yoeNum]; omega

theorem yoeOfN_mono : Monotone yoeOfN :=
  fun _ _ h => Nat.div_le_div_right (monotone_nat_of_le_succ yoeNum_step h)

theorem yearEndpoint_all : checkTree yearEndpointCheck 9 0 = true := by decide

theorem yearEndpoint (y : Nat) (hy : y ≤ 399) :
    yoeOfN (yearStart y) = y ∧ yoeOfN (yearStart (y + 1) - 1) = y := by
  have h := checkTree_spec yearEndpointCheck 9 0 yearEndpoint_all y (by omega)
  simp only [Nat.zero_add, yearEndpointCheck, if_neg (by omega : ¬ y ≥ 400),
    Bool.and_eq_true, beq_iff_eq] at h
  exact h

theorem yearLen_all : checkTree yearLenCheck 9 0 = true := by decide

theorem yearLen (y : Nat) (hy : y ≤ 399) :
    ((y + 1) % 4 = 0 ∧ ((y + 1) % 100 ≠ 0 ∨ y + 1 = 400) ∧
      yearStart (y + 1) = yearStart y + 366) ∨
    (¬ ((y + 1) % 4 = 0 ∧ ((y + 1) % 100 ≠ 0 ∨ y + 1 = 400)) ∧
      yearStart (y + 1) = yearStart y + 365) := by
  have h := checkTree_spec yearLenCheck 9 0 yearLen_all y (by omega)
  rw [Nat.zero_add, yearLenCheck, if_neg (by omega : ¬ y ≥ 400)] at h
  split at h
  · next hcond =>
    simp only [Bool.and_eq_true, beq_iff_eq, bne_iff_ne, Bool.or_eq_true] at hcond h
    omega
  · next hcond =>
    simp only [Bool.and_eq_true, beq_iff_eq, bne_iff_ne, Bool.or_eq_true] at hcond h
    omega

/-- Every day of the era lands in the year the year-of-era formula names:
the formula is exact on all 146097 days. -/
theorem yoe_key (doe : Nat) (h1 : doe < 146097) :
    yoeOfN doe ≤ 399 ∧ yearStart (yoeOfN doe) ≤ doe ∧
      doe < yearStart (yoeOfN doe + 1) := by
  set y := yoeOfN doe with hy
  have h399 : y ≤ 399 := by
    have hm : yoeOfN doe ≤ yoeOfN 146096 := yoeOfN_mono (by omega)
    have h146096 : yoeOfN 146096 = 399 := by decide
    omega
  refine ⟨h399, ?_, ?_⟩
  · rcases Nat.eq_zero_or_pos y with h0 | hpos
    · simp [h0, yearStart]
    · by_contra hlt
      push_neg at hlt
      have hle : doe ≤ yearStart (y - 1 + 1) - 1 := by
        have he : y - 1 + 1 = y := by omega
        rw [he]; omega
      have hmono := yoeOfN_mono hle
      rw [(yearEndpoint (y - 1) (by omega)).2] at hmono
      omega
  · by_contra hge
    push_neg at hge
    have hmono := yoeOfN_mono hge
    rcases Nat.lt_or_ge y 399 with hc | hc
    · rw [(yearEndpoint (y + 1) (by omega)).1] at hmono
      omega
    · have h400 : yearStart (y + 1) = 146097 := by
        have hy399 : y = 399 := by omega
        rw [hy399]; decide
      omega

/-- Int-level transfer of yoe_key, phrased on the exact subexpressions of
civilFromDays, together with the leap-year refinement: day-of-year 365
only occurs when the civil year the formula is about to emit is leap. -/
theorem yoe_key_int (doe yoe doy : Int) (h0 : 0 ≤ doe) (h1 : doe < 146097)
    (hy : yoe = (doe - doe / 1460 + doe / 36524 - doe / 146096) / 365)
    (hd : doy = doe - (365 * yoe + yoe / 4 - yoe / 100)) :
    0 ≤ yoe ∧ yoe ≤ 399 ∧ 0 ≤ doy ∧ doy ≤ 365 ∧
      (doy = 365 → (yoe + 1) % 4 = 0 ∧ ((yoe + 1) % 100 ≠ 0 ∨ yoe + 1 = 400)) := by
  have hkey := yoe_key doe.toNat (by omega)
  set N := doe.toNat with hNdef
  have hN : (N : Int) = doe := by omega
  have hyoeEq : ((yoeOfN N : Nat) : Int) = yoe := by
    have e1 : ((N / 1460 : Nat) : Int) = doe / 1460 := by omega
    have e2 : ((N / 36524 : Nat) : Int) = doe / 36524 := by omega
    have e3 : ((N / 146096 : Nat) : Int) = doe / 146096 := by omega
    simp only [yoeOfN, yoeNum]
    omega
  set Y := yoeOfN N with hYdef
  have hysY : ((yearStart Y : Nat) : Int) = 365 * yoe + yoe / 4 - yoe / 100 := by
    have e4 : ((Y / 4 : Nat) : Int) = yoe / 4 := by omega
    have e5 : ((Y / 100 : Nat) : Int) = yoe / 100 := by omega
    have e6 : Y / 400 = 0 := Nat.div_eq_of_lt (by omega)
    simp only [yearStart]
    omega
  rcases yearLen Y (by omega) with ⟨hc4, hcrest, hlen⟩ | ⟨hnc, hlen⟩
  · omega
  · omega

/-- Main platform theorem: civilFromDays always produces a valid civil
date, and daysFromCivil maps it back to the original day number. -/
theorem civilFromDays_spec (z : Int) :
    daysFromCivil (civilFromDays z).1 (civilFromDays z).2.1 (civilFromDays z).2.2 = z ∧
      validCivil (civilFromDays z).1 (civilFromDays z).2.1 (civilFromDays z).2.2 := by
  unfold validCivil
  simp only [civilFromDays]
  set era := (z + 719468) / 146097 with hera
  set doe := (z + 719468) % 146097 with hdoe
  set yoe := (doe - doe / 1460 + doe / 36524 - doe / 146096) / 365 with hyoe
  set doy := doe - (365 * yoe + yoe / 4 - yoe / 100) with hdoy
  set mp := (5 * doy + 2) / 153 with hmp
  set d := doy - (153 * mp + 2) / 5 + 1 with hd
  have hsplit : 146097 * era + doe = z + 719468 := by
    rw [hera, hdoe]; exact Int.ediv_add_emod _ _
  have hd0 : 0 ≤ doe := by rw [hdoe]; exact Int.emod_nonneg _ (by norm_num)
  have hd1 : doe < 146097 := by rw [hdoe]; exact Int.emod_lt_of_pos _ (by norm_num)
  have key := yoe_key_int doe yoe doy hd0 hd1 hyoe hdoy
  obtain ⟨ky0, ky399, kd0, kd365, kleap⟩ := key
  have hmp0 : 0 ≤ mp := by omega
  have hmp11 : mp ≤ 11 := by omega
  clear_value era doe yoe doy mp d
  have hera2 : (yoe + era * 400) / 400 = era := by omega
  by_cases hc : mp < 10
  · rw [if_pos hc, if_neg (by omega : ¬ mp + 3 ≤ 2)]
    refine ⟨?_, by omega, by omega, by omega, ?_⟩
    · simp only [daysFromCivil]
      rw [if_neg (by omega : ¬ mp + 3 ≤ 2)]
      rw [if_pos (by omega : (2 : Int) < mp + 3)]
      rw [hera2]
      rw [(by ring : yoe + era * 400 - era * 400 = yoe)]
      rw [(by ring : mp + 3 - 3 = mp)]
      omega
    · interval_cases mp <;> simp only [daysInMonth] <;> norm_num <;> omega
  · rw [if_neg hc, if_pos (by omega : mp - 9 ≤ 2)]
    refine ⟨?_, by omega, by omega, by omega, ?_⟩
    · simp only [daysFromCivil]
      rw [if_pos (by omega : mp - 9 ≤ 2)]
      rw [if_neg (by omega : ¬ 2 < mp - 9)]
      rw [(by ring : yoe + era * 400 + 1 - 1 = yoe + era * 400)]
      rw [hera2]
      rw [(by ring : yoe + era * 400 - era * 400 = yoe)]
      rw [(by ring : mp - 9 + 9 = mp)]
      omega
    · have h1011 : mp = 10 ∨ mp = 11 := by omega
      rcases h1011 with h10 | h11
      · subst h10
        simp only [daysInMonth]
        norm_num
        omega
      · subst h11
        simp only [daysInMonth]
        norm_num
        have hsplit2 : doy ≤ 364 ∨ doy = 365 := by omega
        rcases hsplit2 with h364 | h365
        · split_ifs <;> omega
        · have hleap := kleap h365
          have hl : isLeap (yoe + era * 400 + 1) = true := by
            simp only [isLeap, Bool.and_eq_true, beq_iff_eq, Bool.or_eq_true,
              bne_iff_ne]
            omega
          rw [if_pos hl]
          omega

/-! ## Component lemmas -/

/-- daysFromCivil is linear in the day-of-month field, as MakeDay is. -/
theorem daysFromCivil_linear (y m d : Int) :
    daysFromCivil y m d = daysFromCivil y m 1 + (d - 1) := by
  simp only [daysFromCivil]
  split_ifs <;> omega

theorem monthDays_length (y m : Int) : (monthDays y m).length = 42 := by
  simp only [monthDays, List.length_map, List.length_range]

theorem monthDays_getD (y m : Int) (i : Nat) (hi : i < 42) :
    (monthDays y m).getD i 0 =
      daysFromCivil y m 1 -
        (if jsGetDay (daysFromCivil y m 1) = 0 then 6
         else jsGetDay (daysFromCivil y m 1) - 1) + (i : Int) := by
  simp only [monthDays, List.getD_eq_getElem?_getD, List.getElem?_map,
    List.getElem?_range hi, Option.map_some', Option.getD_some]

theorem daysInMonth_le (y m : Int) : 1 ≤ daysInMonth y m ∧ daysInMonth y m ≤ 31 := by
  simp only [daysInMonth]
  split_ifs <;> omega

theorem monthDays_mem (y m day : Int) (h1 : 1 ≤ day) (h2 : day ≤ daysInMonth y m) :
    daysFromCivil y m day ∈ monthDays y m := by
  have h31 := daysInMonth_le y m
  have hlin := daysFromCivil_linear y m day
  have hw : 0 ≤ jsGetDay (daysFromCivil y m 1) ∧ jsGetDay (daysFromCivil y m 1) ≤ 6 := by
    simp only [jsGetDay]
    omega
  simp only [monthDays, List.mem_map, List.mem_range]
  split_ifs with hz
  · exact ⟨(6 + day - 1).toNat, by omega, by omega⟩
  · exact ⟨(jsGetDay (daysFromCivil y m 1) - 1 + day - 1).toNat, by omega, by omega⟩

theorem monthDays_nodup (y m : Int) : (monthDays y m).Nodup := by
  simp only [monthDays]
  refine (List.nodup_range 42).map ?_
  intro a b hab
  dsimp only at hab
  omega

/-- Week-mode column keys do not depend on the runtime offset as long as
the offset keeps the local civil date of the noon-anchored cursor equal to
its app-timezone civil date, i.e. for offsets in [-240, 840] minutes. -/
theorem weekColumnKeys_eq (d off : Int) (h1 : -240 ≤ off) (h2 : off ≤ 840) :
    weekColumnKeys d off =
      (List.range 7).map
        (fun i : Nat => d - (if (d + 4) % 7 = 0 then 6 else (d + 4) % 7 - 1) + (i : Int)) := by
  simp only [weekColumnKeys, toLocalDateKey, klDayOf, jsGetDay, APP_TIMEZONE_OFFSET]
  have hloc : (d * 1440 + 720 - 480 + off) / 1440 = d := by omega
  rw [hloc]
  refine List.map_congr_left ?_
  intro i hi
  split_ifs <;> omega

/-! ## Reverse platform direction: civilFromDays of a valid civil date -/

theorem yearStart_mono : Monotone yearStart := by
  apply monotone_nat_of_le_succ
  intro n
  simp only [yearStart]
  omega

theorem yearStart_bracket_unique (a b doe : Nat)
    (ha1 : yearStart a ≤ doe) (ha2 : doe < yearStart (a + 1))
    (hb1 : yearStart b ≤ doe) (hb2 : doe < yearStart (b + 1)) : a = b := by
  rcases Nat.lt_trichotomy a b with hab | hab | hab
  · have h := yearStart_mono (show a + 1 ≤ b by omega)
    omega
  · exact hab
  · have h := yearStart_mono (show b + 1 ≤ a by omega)
    omega

theorem yearStart_cast (Y : Nat) (hY : Y ≤ 399) :
    ((yearStart Y : Nat) : Int) = 365 * (Y : Int) + (Y : Int) / 4 - (Y : Int) / 100 := by
  have e4 : ((Y / 4 : Nat) : Int) = (Y : Int) / 4 := by omega
  have e5 : ((Y / 100 : Nat) : Int) = (Y : Int) / 100 := by omega
  have e6 : Y / 400 = 0 := Nat.div_eq_of_lt (by omega)
  simp only [yearStart]
  omega

/-- Generic inversion: civilFromDays recovers the era/year/month/day
decomposition of any day number presented in valid normalized form. -/
theorem civilFromDays_eq_of (z era yoe mp dd : Int)
    (h1 : 0 ≤ yoe) (h2 : yoe ≤ 399) (h3 : 0 ≤ mp) (h4 : mp ≤ 11) (h5 : 1 ≤ dd)
    (hbound : (153 * mp + 2) / 5 + dd - 1 ≤ 364 +
      (if (yoe + 1) % 4 = 0 ∧ ((yoe + 1) % 100 ≠ 0 ∨ yoe + 1 = 400) then 1 else 0))
    (hoff : mp ≤ 10 → (153 * mp + 2) / 5 + dd - 1 < (153 * (mp + 1) + 2) / 5)
    (hz : z + 719468 = era * 146097 +
      (yoe * 365 + yoe / 4 - yoe / 100 + ((153 * mp + 2) / 5 + dd - 1))) :
    civilFromDays z =
      (era * 400 + yoe + (if mp < 10 then 0 else 1),
       (if mp < 10 then mp + 3 else mp - 9), dd) := by
  set doy := (153 * mp + 2) / 5 + dd - 1 with hdoy
  have hdoy0 : 0 ≤ doy := by omega
  have hdoyCase : doy ≤ 364 ∨
      (doy = 365 ∧ (yoe + 1) % 4 = 0 ∧ ((yoe + 1) % 100 ≠ 0 ∨ yoe + 1 = 400)) := by
    split_ifs at hbound with hcond
    · omega
    · omega
  have hdoy365 : doy ≤ 365 := by omega
  set s := yoe * 365 + yoe / 4 - yoe / 100 with hs
  set doe := s + doy with hdoe
  have hdoeRange : 0 ≤ doe ∧ doe < 146097 := by constructor <;> omega
  have hcast0 : ((yoe.toNat : Nat) : Int) = yoe := by omega
  have hcast1 : ((yearStart yoe.toNat : Nat) : Int) = s := by
    rw [yearStart_cast yoe.toNat (by omega), hcast0]
    omega
  have hlen := yearLen yoe.toNat (by omega)
  have hbracket1 : yearStart yoe.toNat ≤ doe.toNat := by omega
  have hbracket2 : doe.toNat < yearStart (yoe.toNat + 1) := by
    rcases hlen with ⟨hc4, hcrest, hl⟩ | ⟨hnc, hl⟩
    · omega
    · omega
  simp only [civilFromDays]
  have hera : (z + 719468) / 146097 = era := by omega
  have hdoe2 : (z + 719468) % 146097 = doe := by omega
  rw [hera, hdoe2]
  have hkey := yoe_key doe.toNat (by omega)
  have hyoeEq : ((yoeOfN doe.toNat : Nat) : Int) =
      (doe - doe / 1460 + doe / 36524 - doe / 146096) / 365 := by
    have e1 : ((doe.toNat / 1460 : Nat) : Int) = doe / 1460 := by omega
    have e2 : ((doe.toNat / 36524 : Nat) : Int) = doe / 36524 := by omega
    have e3 : ((doe.toNat / 146096 : Nat) : Int) = doe / 146096 := by omega
    simp only [yoeOfN, yoeNum]
    omega
  have hY : yoeOfN doe.toNat = yoe.toNat :=
    yearStart_bracket_unique _ _ _ hkey.2.1 hkey.2.2 hbracket1 hbracket2
  have hyoeF2 : (doe - doe / 1460 + doe / 36524 - doe / 146096) / 365 = yoe := by
    have hc : ((yoe.toNat : Nat) : Int) = yoe := by omega
    rw [← hyoeEq, hY, hc]
  rw [hyoeF2]
  have hdoyF : doe - (365 * yoe + yoe / 4 - yoe / 100) = doy := by omega
  rw [hdoyF]
  have hmpF : (5 * doy + 2) / 153 = mp := by
    rcases (by omega : mp ≤ 10 ∨ mp = 11) with h10 | h11
    · have := hoff h10
      omega
    · omega
  rw [hmpF]
  have hdF : doy - (153 * mp + 2) / 5 + 1 = dd := by omega
  rw [hdF]
  by_cases hc10 : mp < 10
  · simp only [if_pos hc10]
    rw [if_neg (by omega : ¬ mp + 3 ≤ 2)]
    rw [(by ring : era * 400 + yoe + 0 = yoe + era * 400)]
  · simp only [if_neg hc10]
    rw [if_pos (by omega : mp - 9 ≤ 2)]
    rw [(by ring : era * 400 + yoe + 1 = yoe + era * 400 + 1)]

/-- Reverse platform theorem: on valid civil dates, civilFromDays inverts
daysFromCivil. -/
theorem civilFromDays_daysFromCivil (y m d : Int) (hv : validCivil y m d) :
    civilFromDays (daysFromCivil y m d) = (y, m, d) := by
  obtain ⟨hm1, hm12, hd1, hdm⟩ := hv
  by_cases hmle : m ≤ 2
  · set era := (y - 1) / 400 with hera
    set yoe := (y - 1) - era * 400 with hyoe
    have hy1 : 0 ≤ yoe ∧ yoe ≤ 399 := by omega
    have hz : daysFromCivil y m d + 719468 = era * 146097 +
        (yoe * 365 + yoe / 4 - yoe / 100 + ((153 * (m + 9) + 2) / 5 + d - 1)) := by
      simp only [daysFromCivil]
      rw [if_pos hmle, if_neg (by omega : ¬ 2 < m)]
      omega
    have hbound : (153 * (m + 9) + 2) / 5 + d - 1 ≤ 364 +
        (if (yoe + 1) % 4 = 0 ∧ ((yoe + 1) % 100 ≠ 0 ∨ yoe + 1 = 400) then 1 else 0) := by
      rcases (by omega : m = 1 ∨ m = 2) with h1 | h2
      · subst h1
        have h31 : daysInMonth y 1 = 31 := by norm_num [daysInMonth]
        split_ifs <;> omega
      · subst h2
        have hdm2 : d ≤ 28 ∨ (d ≤ 29 ∧
            (y % 4 = 0 ∧ (y % 100 ≠ 0 ∨ y % 400 = 0))) := by
          by_cases hL : isLeap y = true
          · right
            have h29 : daysInMonth y 2 = 29 := by
              simp only [daysInMonth, if_pos rfl]
              rw [if_pos hL]
              norm_num
            simp only [isLeap, Bool.and_eq_true, beq_iff_eq, Bool.or_eq_true,
              bne_iff_ne] at hL
            exact ⟨by omega, hL⟩
          · left
            have h28 : daysInMonth y 2 = 28 := by
              simp only [daysInMonth, if_pos rfl]
              rw [if_neg hL]
              norm_num
            omega
        split_ifs with hcond
        · omega
        · rcases hdm2 with hc | ⟨hd29, hLy⟩
          · omega
          · exfalso
            apply hcond
            omega
    have hoff : m + 9 ≤ 10 → (153 * (m + 9) + 2) / 5 + d - 1 <
        (153 * (m + 9 + 1) + 2) / 5 := by
      intro h10
      have h1 : m = 1 := by omega
      subst h1
      have h31 : daysInMonth y 1 = 31 := by norm_num [daysInMonth]
      omega
    have happ := civilFromDays_eq_of (daysFromCivil y m d) era yoe (m + 9) d
      hy1.1 hy1.2 (by omega) (by omega) hd1 hbound hoff hz
    rw [happ, if_neg (by omega : ¬ m + 9 < 10), if_neg (by omega : ¬ m + 9 < 10)]
    rw [(by omega : era * 400 + yoe + 1 = y), (by omega : m + 9 - 9 = m)]
  · set era := y / 400 with hera
    set yoe := y - era * 400 with hyoe
    have hy1 : 0 ≤ yoe ∧ yoe ≤ 399 := by omega
    have hz : daysFromCivil y m d + 719468 = era * 146097 +
        (yoe * 365 + yoe / 4 - yoe / 100 + ((153 * (m - 3) + 2) / 5 + d - 1)) := by
      simp only [daysFromCivil]
      rw [if_neg hmle, if_pos (by omega : 2 < m)]
      omega
    have hdmv : daysInMonth y m ≤ 31 ∧
        (m = 4 ∨ m = 6 ∨ m = 9 ∨ m = 11 → daysInMonth y m = 30) := by
      constructor
      · exact (daysInMonth_le y m).2
      · intro hc
        simp only [daysInMonth, if_neg (by omega : ¬ m = 2), if_pos hc]
    have hbound : (153 * (m - 3) + 2) / 5 + d - 1 ≤ 364 +
        (if (yoe + 1) % 4 = 0 ∧ ((yoe + 1) % 100 ≠ 0 ∨ yoe + 1 = 400) then 1 else 0) := by
      split_ifs <;> interval_cases m <;> omega
    have hoff : m - 3 ≤ 10 → (153 * (m - 3) + 2) / 5 + d - 1 <
        (153 * (m - 3 + 1) + 2) / 5 := by
      intro h10
      interval_cases m <;> omega
    have happ := civilFromDays_eq_of (daysFromCivil y m d) era yoe (m - 3) d
      hy1.1 hy1.2 (by omega) (by omega) hd1 hbound hoff hz
    rw [happ, if_pos (by omega : m - 3 < 10), if_pos (by omega : m - 3 < 10)]
    rw [(by omega : era * 400 + yoe + 0 = y), (by omega : m - 3 + 3 = m)]

/-! ## Claims -/

/-- C3: for every civil date, the month window has length exactly 42, its
elements increase by exactly one day per element, and it contains every
day of the calendar month (leading padding per padStart, trailing days
from the next month). -/
theorem C3_month_window (y m : Int) :
    (monthDays y m).length = 42 ∧
    (∀ i : Nat, i < 41 →
      (monthDays y m).getD (i + 1) 0 = (monthDays y m).getD i 0 + 1) ∧
    (∀ day : Int, 1 ≤ day → day ≤ daysInMonth y m →
      daysFromCivil y m day ∈ monthDays y m) := by
  refine ⟨monthDays_length y m, ?_, fun day h1 h2 => monthDays_mem y m day h1 h2⟩
  intro i hi
  rw [monthDays_getD y m (i + 1) (by omega), monthDays_getD y m i (by omega)]
  push_cast
  ring

/-- Witness for C3 at the February 2025 window. -/
theorem C3_month_window_witness :
    (monthDays 2025 2).length = 42 ∧
    (monthDays 2025 2).getD 1 0 = (monthDays 2025 2).getD 0 0 + 1 ∧
    (1 : Int) ≤ 28 ∧ (28 : Int) ≤ daysInMonth 2025 2 ∧
    daysFromCivil 2025 2 28 ∈ monthDays 2025 2 :=
  ⟨(C3_month_window 2025 2).1,
   (C3_month_window 2025 2).2.1 0 (by norm_num),
   by norm_num, by decide,
   (C3_month_window 2025 2).2.2 28 (by norm_num) (by decide)⟩

/-- C4: getStartOfWeek always returns a Monday (getDay = 1), the input
lies in the closed 7-day interval it starts, and the rendered week window
contains the input day; Sundays (getDay = 0) step back six days. -/
theorem C4_start_of_week (n : Int) :
    jsGetDay (getStartOfWeek n) = 1 ∧
    getStartOfWeek n ≤ n ∧ n ≤ getStartOfWeek n + 6 ∧
    n ∈ weekDays n ∧
    (jsGetDay n = 0 → getStartOfWeek n = n - 6) := by
  have hb : getStartOfWeek n ≤ n ∧ n ≤ getStartOfWeek n + 6 := by
    simp only [getStartOfWeek, jsGetDay]
    split_ifs <;> omega
  have hm : jsGetDay (getStartOfWeek n) = 1 := by
    simp only [getStartOfWeek, jsGetDay]
    split_ifs <;> omega
  refine ⟨hm, hb.1, hb.2, ?_, ?_⟩
  · simp only [weekDays, List.mem_map, List.mem_range]
    exact ⟨(n - getStartOfWeek n).toNat, by omega, by omega⟩
  · intro h0
    simp only [getStartOfWeek, jsGetDay] at h0 ⊢
    omega

/-- Witness for C4 at the Sunday 2025-02-02. -/
theorem C4_start_of_week_witness :
    jsGetDay (daysFromCivil 2025 2 2) = 0 ∧
    getStartOfWeek (daysFromCivil 2025 2 2) = daysFromCivil 2025 2 2 - 6 ∧
    jsGetDay (getStartOfWeek (daysFromCivil 2025 2 2)) = 1 ∧
    daysFromCivil 2025 2 2 ∈ weekDays (daysFromCivil 2025 2 2) :=
  ⟨by decide,
   (C4_start_of_week (daysFromCivil 2025 2 2)).2.2.2.2 (by decide),
   (C4_start_of_week (daysFromCivil 2025 2 2)).1,
   (C4_start_of_week (daysFromCivil 2025 2 2)).2.2.2.1⟩

/-- C5: the computed block geometry equals the reference formulas at the
configured grid constants; a meeting starting at the grid start hour has
top 0, a 60-minute meeting is one cell high, and a start hour before the
grid start yields a negative (unclamped) top. -/
theorem C5_meeting_geometry (h mi : Nat) (dur : ℚ)
    (hh : h ≤ 23) (hm : mi ≤ 59) (hd : 0 < dur) :
    (getMeetingStyle (h : ℚ) (mi : ℚ) dur).1 =
      verticalOffset (h : ℚ) (mi : ℚ) START_HOUR CELL_HEIGHT ∧
    (getMeetingStyle (h : ℚ) (mi : ℚ) dur).2 = blockHeight dur CELL_HEIGHT ∧
    (h = 8 → mi = 0 → (getMeetingStyle (h : ℚ) (mi : ℚ) dur).1 = 0) ∧
    (dur = 60 → (getMeetingStyle (h : ℚ) (mi : ℚ) dur).2 = CELL_HEIGHT) ∧
    (h < 8 → (getMeetingStyle (h : ℚ) (mi : ℚ) dur).1 < 0) := by
  refine ⟨rfl, rfl, ?_, ?_, ?_⟩
  · intro h8 m0
    subst h8; subst m0
    simp [getMeetingStyle, START_HOUR, CELL_HEIGHT]
  · intro h60
    subst h60
    simp [getMeetingStyle, blockHeight, CELL_HEIGHT]
  · intro hlt
    have h7 : (h : ℚ) ≤ 7 := by exact_mod_cast (by omega : h ≤ 7)
    have hmq : (mi : ℚ) ≤ 59 := by exact_mod_cast hm
    have hmq0 : (0 : ℚ) ≤ (mi : ℚ) := by positivity
    simp only [getMeetingStyle, START_HOUR, CELL_HEIGHT]
    linarith

/-- Witness for C5: the formulas at 09:30 for 60 minutes, and the
negative top at 07:30 (before the 8-o-clock grid start). -/
theorem C5_meeting_geometry_witness :
    (getMeetingStyle ((9 : Nat) : ℚ) ((30 : Nat) : ℚ) 60).1 =
      verticalOffset ((9 : Nat) : ℚ) ((30 : Nat) : ℚ) START_HOUR CELL_HEIGHT ∧
    (getMeetingStyle ((9 : Nat) : ℚ) ((30 : Nat) : ℚ) 60).2 =
      blockHeight 60 CELL_HEIGHT ∧
    (getMeetingStyle ((9 : Nat) : ℚ) ((30 : Nat) : ℚ) 60).2 = CELL_HEIGHT ∧
    (getMeetingStyle ((7 : Nat) : ℚ) ((30 : Nat) : ℚ) 60).1 < 0 :=
  ⟨(C5_meeting_geometry 9 30 60 (by norm_num) (by norm_num) (by norm_num)).1,
   (C5_meeting_geometry 9 30 60 (by norm_num) (by norm_num) (by norm_num)).2.1,
   (C5_meeting_geometry 9 30 60 (by norm_num) (by norm_num) (by norm_num)).2.2.2.1 rfl,
   (C5_meeting_geometry 7 30 60 (by norm_num) (by norm_num) (by norm_num)).2.2.2.2
     (by norm_num)⟩

/-- C6: the meeting-block vertical offset and the now-indicator vertical
offset are the same function of (hour, minute): the two call sites
compute identical pixel values on all inputs. -/
theorem C6_offset_equivalence (hours minutes durationMinutes : ℚ) :
    (getMeetingStyle hours minutes durationMinutes).1 = nowIndicatorTop hours minutes :=
  rfl

/-- C10: dispatching delete or edit from the detail modal fires the
external callback with the selected meeting id and clears the selection
in the same transition, so the modal never stays open for the acted-on
meeting. -/
theorem C10_modal_selection_cleared (s : CalendarViewState) (m : Meeting)
    (hs : s.selectedMeeting = some m) :
    modalDeleteClick s =
      ([CallbackEvent.onDelete m.id], { s with selectedMeeting := none }) ∧
    (modalDeleteClick s).2.selectedMeeting = none ∧
    modalEditClick true s =
      ([CallbackEvent.onEdit m.id], { s with selectedMeeting := none }) ∧
    (modalEditClick true s).2.selectedMeeting = none := by
  simp [modalDeleteClick, modalEditClick, hs]

/-- Witness for C10 with a concrete selected meeting. -/
theorem C10_modal_selection_cleared_witness :
    (CalendarViewState.mk CalendarMode.week 0
        (some (Meeting.mk "m1" "t" "2025-05-01" "08:00" 60 "Board"))).selectedMeeting =
      some (Meeting.mk "m1" "t" "2025-05-01" "08:00" 60 "Board") ∧
    (modalDeleteClick (CalendarViewState.mk CalendarMode.week 0
        (some (Meeting.mk "m1" "t" "2025-05-01" "08:00" 60 "Board")))).2.selectedMeeting = none ∧
    (modalEditClick true (CalendarViewState.mk CalendarMode.week 0
        (some (Meeting.mk "m1" "t" "2025-05-01" "08:00" 60 "Board")))).2.selectedMeeting = none :=
  ⟨rfl,
   (C10_modal_selection_cleared _ _ rfl).2.1,
   (C10_modal_selection_cleared _ _ rfl).2.2.2⟩

/-- C1 counterexample: navigating the month-mode cursor forward by 1 from
2025-01-31 does not land in February: setMonth normalizes the raw
day-of-month 31 of a 28-day February to 2025-03-03, and the rendered
window is the March one, which omits 2025-02-01.  This refutes the claim
that the window after this navigation contains every day of February
2025. -/
theorem C1_month_navigation_counterexample :
    navigate (daysFromCivil 2025 1 31) CalendarMode.month 1 = daysFromCivil 2025 3 3 ∧
    civilFromDays (navigate (daysFromCivil 2025 1 31) CalendarMode.month 1) =
      (2025, 3, 3) ∧
    daysFromCivil 2025 2 1 ∉
      monthDaysOfCursor (navigate (daysFromCivil 2025 1 31) CalendarMode.month 1) := by
  refine ⟨by decide, by decide, by decide⟩

/-- C1 amended: month navigation adds delta calendar months with the
JavaScript setMonth overflow normalization instead of clamping: when the
cursor day-of-month exists in the target month the day is preserved
exactly, otherwise the raw day field overflows into the following month.
From 2025-01-31, forward by 1 yields the cursor 2025-03-03, whose 42-cell
window is consecutive, duplicate-free and contains every day of March
2025 — but not all of February. -/
theorem C1_month_navigation_amended :
    (∀ (y m d delta : Int), validCivil y m d →
      d ≤ daysInMonth (y + (m - 1 + delta) / 12) ((m - 1 + delta) % 12 + 1) →
      civilFromDays (navigate (daysFromCivil y m d) CalendarMode.month delta) =
        (y + (m - 1 + delta) / 12, (m - 1 + delta) % 12 + 1, d)) ∧
    civilFromDays (navigate (daysFromCivil 2025 1 31) CalendarMode.month 1) =
      (2025, 3, 3) ∧
    monthDaysOfCursor (navigate (daysFromCivil 2025 1 31) CalendarMode.month 1) =
      monthDays 2025 3 ∧
    (∀ day : Int, 1 ≤ day → day ≤ 31 →
      daysFromCivil 2025 3 day ∈ monthDays 2025 3) ∧
    (∀ i : Nat, i < 41 →
      (monthDays 2025 3).getD (i + 1) 0 = (monthDays 2025 3).getD i 0 + 1) ∧
    (monthDays 2025 3).Nodup ∧
    daysFromCivil 2025 2 1 ∉ monthDays 2025 3 := by
  refine ⟨?_, by decide, by decide, ?_, ?_, monthDays_nodup 2025 3, by decide⟩
  · intro y m d delta hv hdt
    have hd1 : 1 ≤ d := hv.2.2.1
    simp only [navigate]
    rw [civilFromDays_daysFromCivil y m d hv]
    exact civilFromDays_daysFromCivil _ _ _
      ⟨by omega, by omega, hd1, hdt⟩
  · intro day h1 h2
    exact monthDays_mem 2025 3 day h1 (by
      have hd : daysInMonth 2025 3 = 31 := by decide
      omega)
  · intro i hi
    rw [monthDays_getD 2025 3 (i + 1) (by omega), monthDays_getD 2025 3 i (by omega)]
    push_cast
    ring

/-- Witness for the amended C1: navigating 2025-03-15 forward one month
preserves the day-of-month (2025-04-15), and the March window facts at
concrete points. -/
theorem C1_month_navigation_amended_witness :
    validCivil 2025 3 15 ∧ (15 : Int) ≤ daysInMonth 2025 4 ∧
    civilFromDays (navigate (daysFromCivil 2025 3 15) CalendarMode.month 1) =
      (2025 + (3 - 1 + 1) / 12, (3 - 1 + 1) % 12 + 1, 15) ∧
    daysFromCivil 2025 3 15 ∈ monthDays 2025 3 ∧
    (monthDays 2025 3).getD 1 0 = (monthDays 2025 3).getD 0 0 + 1 :=
  ⟨by decide, by decide,
   C1_month_navigation_amended.1 2025 3 15 1 (by decide) (by decide),
   C1_month_navigation_amended.2.2.2.1 15 (by norm_num) (by norm_num),
   C1_month_navigation_amended.2.2.2.2.1 0 (by norm_num)⟩

/-- C2 counterexample: one render of the current revision with the cursor
initialized from app-timezone today 2025-01-31 keys the week columns
differently under local offset UTC+8 and UTC-5: the columns are the
app-timezone days Jan 27 - Feb 2 in the first run but Jan 28 - Feb 3 in
the second, so a meeting dated 2025-01-27 is placed in a day column in
the first run and in no column in the second.  This refutes the claim
that column placement is independent of the runtime local timezone (for
every revision). -/
theorem C2_timezone_independence_counterexample :
    weekColumnKeys (daysFromCivil 2025 1 31) 480 ≠
      weekColumnKeys (daysFromCivil 2025 1 31) (-300) ∧
    daysFromCivil 2025 1 27 ∈ weekColumnKeys (daysFromCivil 2025 1 31) 480 ∧
    daysFromCivil 2025 1 27 ∉ weekColumnKeys (daysFromCivil 2025 1 31) (-300) := by
  refine ⟨by decide, by decide, by decide⟩

/-- C2 amended: the date-key function itself (toLocalDateKey) depends
only on the fixed app timezone, and two runs differing only in the
runtime local offset produce identical week-mode day columns provided
both offsets lie in [-240, 840] minutes (UTC-4 through UTC+14), the range
in which the local civil date of the noon-anchored cursor agrees with its
app-timezone date; further west (e.g. UTC-5) the whole column window
shifts by one day. -/
theorem C2_timezone_independence_amended (d off1 off2 : Int)
    (h1 : -240 ≤ off1) (h2 : off1 ≤ 840) (h3 : -240 ≤ off2) (h4 : off2 ≤ 840) :
    weekColumnKeys d off1 = weekColumnKeys d off2 := by
  rw [weekColumnKeys_eq d off1 h1 h2, weekColumnKeys_eq d off2 h3 h4]

/-- Witness for the amended C2: UTC+8 and UTC-4 runs agree on the
2025-01-31 cursor. -/
theorem C2_timezone_independence_amended_witness :
    (-240 : Int) ≤ 480 ∧ (480 : Int) ≤ 840 ∧ (-240 : Int) ≤ -240 ∧ (-240 : Int) ≤ 840 ∧
    weekColumnKeys (daysFromCivil 2025 1 31) 480 =
      weekColumnKeys (daysFromCivil 2025 1 31) (-240) :=
  ⟨by norm_num, by norm_num, by norm_num, by norm_num,
   C2_timezone_independence_amended (daysFromCivil 2025 1 31) 480 (-240)
     (by norm_num) (by norm_num) (by norm_num) (by norm_num)⟩

/-- C7: the list renderer emits the meetings sorted ascending by the
parseAsAppTz instant, the sort is stable (per instant value, the
subsequence of meetings is exactly their input subsequence, so ties keep
insertion order), the output is a permutation of the (unmutated, copied)
input, and the sort key of a meeting is the instant its (date, startTime)
parses to. -/
theorem C7_list_chronological (ms : List Meeting) :
    List.Pairwise (fun a b => sortKey a ≤ sortKey b) (sorted ms) ∧
    (sorted ms).Perm ms ∧
    (∀ k : Int, (sorted ms).filter (fun m => sortKey m == k) =
      ms.filter (fun m => sortKey m == k)) ∧
    (∀ m ∈ ms, ∀ t : Int, parseAsAppTz m.date m.startTime = some t → sortKey m = t) := by
  have htrans : ∀ (a b c : Meeting), decide (sortKey a ≤ sortKey b) = true →
      decide (sortKey b ≤ sortKey c) = true → decide (sortKey a ≤ sortKey c) = true := by
    intro a b c h1 h2
    simp only [decide_eq_true_eq] at h1 h2 ⊢
    omega
  have htotal : ∀ (a b : Meeting),
      (decide (sortKey a ≤ sortKey b) || decide (sortKey b ≤ sortKey a)) = true := by
    intro a b
    simp only [Bool.or_eq_true, decide_eq_true_eq]
    omega
  refine ⟨?_, List.mergeSort_perm ms _, ?_, ?_⟩
  · exact (List.sorted_mergeSort htrans htotal ms).imp
      (fun h => by simpa using h)
  · intro k
    have hsub : List.Sublist (ms.filter (fun m => sortKey m == k)) ms :=
      List.filter_sublist ms
    have hpair : (ms.filter (fun m => sortKey m == k)).Pairwise
        (fun a b => decide (sortKey a ≤ sortKey b) = true) := by
      apply List.pairwise_of_forall_mem_list
      intro a ha b hb
      simp only [List.mem_filter, beq_iff_eq] at ha hb
      simp only [decide_eq_true_eq]
      omega
    have hstable := List.sublist_mergeSort htrans htotal hpair hsub
    have hidem : (ms.filter (fun m => sortKey m == k)).filter (fun m => sortKey m == k) =
        ms.filter (fun m => sortKey m == k) := by
      simp [List.filter_filter]
    have h1 : List.Sublist (ms.filter (fun m => sortKey m == k))
        ((sorted ms).filter (fun m => sortKey m == k)) := by
      have h2 := hstable.filter (fun m => sortKey m == k)
      rwa [hidem] at h2
    have hperm : ((sorted ms).filter (fun m => sortKey m == k)).Perm
        (ms.filter (fun m => sortKey m == k)) :=
      (List.mergeSort_perm ms _).filter _
    exact (h1.eq_of_length hperm.length_eq.symm).symm
  · intro m hm t ht
    simp [sortKey, ht]

unseal List.merge List.mergeSort in
/-- Witness for C7: two meetings on 2025-05-01 supplied late-first; the
renderer outputs the 08:00 meeting first, the output is a permutation of
the input, ties-bucket filtering is unchanged, and the key of the 08:00
meeting is its parsed instant. -/
theorem C7_list_chronological_witness :
    sorted [Meeting.mk "b" "late" "2025-05-01" "09:00" 60 "Board",
            Meeting.mk "a" "early" "2025-05-01" "08:00" 60 "Board"] =
      [Meeting.mk "a" "early" "2025-05-01" "08:00" 60 "Board",
       Meeting.mk "b" "late" "2025-05-01" "09:00" 60 "Board"] ∧
    (sorted [Meeting.mk "b" "late" "2025-05-01" "09:00" 60 "Board",
             Meeting.mk "a" "early" "2025-05-01" "08:00" 60 "Board"]).Perm
      [Meeting.mk "b" "late" "2025-05-01" "09:00" 60 "Board",
       Meeting.mk "a" "early" "2025-05-01" "08:00" 60 "Board"] ∧
    parseAsAppTz "2025-05-01" "08:00" = some 29100960 ∧
    sortKey (Meeting.mk "a" "early" "2025-05-01" "08:00" 60 "Board") = 29100960 :=
  ⟨by rfl,
   (C7_list_chronological
      [Meeting.mk "b" "late" "2025-05-01" "09:00" 60 "Board",
       Meeting.mk "a" "early" "2025-05-01" "08:00" 60 "Board"]).2.1,
   by decide,
   (C7_list_chronological
      [Meeting.mk "b" "late" "2025-05-01" "09:00" 60 "Board",
       Meeting.mk "a" "early" "2025-05-01" "08:00" 60 "Board"]).2.2.2
     (Meeting.mk "a" "early" "2025-05-01" "08:00" 60 "Board")
     (by decide) 29100960 (by decide)⟩

/-! ## Format and parse lemmas for the timezone conversions -/

theorem digitVal_digitChar (k : Nat) (hk : k ≤ 9) : digitVal (digitChar k) = some k := by
  interval_cases k <;> decide

theorem parse2_fmt2 (n : Nat) (hn : n ≤ 99) :
    parse2 (digitChar (n / 10 % 10)) (digitChar (n % 10)) = some n := by
  unfold parse2
  rw [digitVal_digitChar _ (by omega), digitVal_digitChar _ (by omega)]
  show some (10 * (n / 10 % 10) + n % 10) = some n
  congr 1
  omega

theorem parse4_fmt4 (n : Nat) (hn : n ≤ 9999) :
    parse4 (digitChar (n / 1000 % 10)) (digitChar (n / 100 % 10))
      (digitChar (n / 10 % 10)) (digitChar (n % 10)) = some n := by
  unfold parse4
  have e1 : n / 1000 % 10 = n / 100 / 10 % 10 := by omega
  have e2 : n / 100 % 10 = n / 100 % 10 := rfl
  have e3 : n / 10 % 10 = n % 100 / 10 % 10 := by omega
  have e4 : n % 10 = n % 100 % 10 := by omega
  rw [e1, e3, e4, parse2_fmt2 (n / 100) (by omega), parse2_fmt2 (n % 100) (by omega)]
  show some (100 * (n / 100) + n % 100) = some n
  congr 1
  omega

theorem parseDateES_fmt (y m d : Int) (hv : validCivil y m d)
    (hy1 : 1000 ≤ y) (hy2 : y ≤ 9999) :
    parseDateES (fmt4 y.toNat ++ '-' :: fmt2 m.toNat ++ '-' :: fmt2 d.toNat) =
      some (y, m, d) := by
  obtain ⟨hm1, hm12, hd1, hdm⟩ := hv
  have hdm31 := daysInMonth_le y m
  have hyc : ((y.toNat : Nat) : Int) = y := by omega
  have hmc : ((m.toNat : Nat) : Int) = m := by omega
  have hdc : ((d.toNat : Nat) : Int) = d := by omega
  simp only [fmt4, fmt2, List.cons_append, List.nil_append, parseDateES]
  rw [parse4_fmt4 y.toNat (by omega), parse2_fmt2 m.toNat (by omega),
    parse2_fmt2 d.toNat (by omega)]
  simp only [hyc, hmc, hdc]
  rw [if_pos ⟨by omega, by omega, by omega, by omega⟩]

theorem parseTimeFrag_fmt (h mi : Nat) (hh : h ≤ 23) (hm : mi ≤ 59) :
    parseTimeFrag (fmt2 h ++ ':' :: fmt2 mi) = some ((h : Int) * 60 + (mi : Int)) := by
  simp only [fmt2, List.cons_append, List.nil_append, parseTimeFrag]
  rw [parse2_fmt2 h (by omega), parse2_fmt2 mi (by omega)]
  simp only []
  rw [if_pos (Or.inl ⟨hh, hm⟩)]

theorem parseTimeFrag_reject (h mi : Nat) (hh : h ≤ 99) (hm : mi ≤ 99)
    (hbad : ¬ ((h ≤ 23 ∧ mi ≤ 59) ∨ (h = 24 ∧ mi = 0))) :
    parseTimeFrag (fmt2 h ++ ':' :: fmt2 mi) = none := by
  simp only [fmt2, List.cons_append, List.nil_append, parseTimeFrag]
  rw [parse2_fmt2 h (by omega), parse2_fmt2 mi (by omega)]
  simp only []
  rw [if_neg hbad]

theorem parseDateES_reject (y m d : Nat) (hy : y ≤ 9999) (hm99 : m ≤ 99) (hd99 : d ≤ 99)
    (hbad : ¬ (1 ≤ m ∧ m ≤ 12 ∧ 1 ≤ d ∧ ((d : Nat) : Int) ≤ daysInMonth (y : Int) (m : Int))) :
    parseDateES (fmt4 y ++ '-' :: fmt2 m ++ '-' :: fmt2 d) = none := by
  simp only [fmt4, fmt2, List.cons_append, List.nil_append, parseDateES]
  rw [parse4_fmt4 y (by omega), parse2_fmt2 m (by omega), parse2_fmt2 d (by omega)]
  simp only []
  rw [if_neg (by exact_mod_cast hbad)]

theorem parseDateES_valid (cs : List Char) (y m d : Int)
    (h : parseDateES cs = some (y, m, d)) : validCivil y m d := by
  unfold parseDateES at h
  split at h
  · split at h
    · next y0 heq =>
      simp only [Option.some.injEq, Prod.mk.injEq] at h
      obtain ⟨h1, h2, h3⟩ := h
      subst h1; subst h2; subst h3
      refine ⟨by norm_num, by norm_num, by norm_num, ?_⟩
      simp only [daysInMonth]
      norm_num
    · exact absurd h (by simp)
  · split at h
    · next y0 m0 heq1 heq2 =>
      split at h
      · next hcond =>
        simp only [Option.some.injEq, Prod.mk.injEq] at h
        obtain ⟨h1, h2, h3⟩ := h
        subst h1; subst h2; subst h3
        have hd := daysInMonth_le (y0 : Int) (m0 : Int)
        exact ⟨by omega, by omega, by norm_num, by omega⟩
      · exact absurd h (by simp)
    · exact absurd h (by simp)
  · split at h
    · next y0 m0 d0 heq1 heq2 heq3 =>
      split at h
      · next hcond =>
        simp only [Option.some.injEq, Prod.mk.injEq] at h
        obtain ⟨h1, h2, h3⟩ := h
        subst h1; subst h2; subst h3
        exact ⟨by omega, by omega, by omega, hcond.2.2.2⟩
      · exact absurd h (by simp)
    · exact absurd h (by simp)
  · exact absurd h (by simp)

theorem parseTimeFrag_range (cs : List Char) (mins : Int)
    (h : parseTimeFrag cs = some mins) : 0 ≤ mins ∧ mins ≤ 1440 := by
  unfold parseTimeFrag at h
  split at h
  · split at h
    · next h0 heq =>
      split at h
      · next hcond =>
        simp only [Option.some.injEq] at h
        omega
      · exact absurd h (by simp)
    · exact absurd h (by simp)
  · split at h
    · next h0 mi0 heq1 heq2 =>
      split at h
      · next hcond =>
        simp only [Option.some.injEq] at h
        rcases hcond with hc1 | hc2
        · omega
        · omega
      · exact absurd h (by simp)
    · exact absurd h (by simp)
  · exact absurd h (by simp)

/-- C8 counterexample: the out-of-range startTime 24:00 is not rejected:
the template "2025-01-01T24:00:00+08:00" is a conforming ECMAScript
date-time string denoting midnight at the end of the day, so parseAsAppTz
returns a valid instant lying on the app-timezone civil day 2025-01-02,
not on the written day 2025-01-01.  This refutes both halves of the
claim: a malformed input neither yields the Invalid sentinel nor stays on
the written civil day. -/
theorem C8_invalid_sentinel_counterexample :
    parseAsAppTz "2025-01-01" "24:00" = some (daysFromCivil 2025 1 2 * 1440 - 480) ∧
    parseAsAppTz "2025-01-01" "24:00" ≠ none ∧
    klDayOf (daysFromCivil 2025 1 2 * 1440 - 480) = daysFromCivil 2025 1 2 ∧
    daysFromCivil 2025 1 2 ≠ daysFromCivil 2025 1 1 := by
  refine ⟨by decide, by decide, by decide, by decide⟩

/-- C8 amended: a well-formed YYYY-MM-DD / HH:mm input parses to a valid
instant on the written civil day; the single out-of-range time 24:00 is
accepted and silently coerced to midnight of the next civil day; all
other out-of-range fields in those shapes (hour 25..99, minute 60..99,
month outside 1..12, day outside the month) produce the Invalid sentinel;
and every successful parse lands on the written civil day except the
24:00 form, which lands one day later. -/
theorem C8_parse_failfast_amended :
    (∀ (y m d : Int) (h mi : Nat), validCivil y m d → 1000 ≤ y → y ≤ 9999 →
      h ≤ 23 → mi ≤ 59 →
      parseAsAppTz (String.mk (fmt4 y.toNat ++ '-' :: fmt2 m.toNat ++ '-' :: fmt2 d.toNat))
          (String.mk (fmt2 h ++ ':' :: fmt2 mi)) =
        some (daysFromCivil y m d * 1440 + ((h : Int) * 60 + (mi : Int)) - 480) ∧
      klDayOf (daysFromCivil y m d * 1440 + ((h : Int) * 60 + (mi : Int)) - 480) =
        daysFromCivil y m d) ∧
    (∀ (y m d : Int), validCivil y m d → 1000 ≤ y → y ≤ 9999 →
      parseAsAppTz (String.mk (fmt4 y.toNat ++ '-' :: fmt2 m.toNat ++ '-' :: fmt2 d.toNat))
          (String.mk ['2', '4', ':', '0', '0']) =
        some (daysFromCivil y m d * 1440 + 1440 - 480) ∧
      klDayOf (daysFromCivil y m d * 1440 + 1440 - 480) = daysFromCivil y m d + 1) ∧
    (∀ (h mi : Nat), h ≤ 99 → mi ≤ 99 →
      ¬ ((h ≤ 23 ∧ mi ≤ 59) ∨ (h = 24 ∧ mi = 0)) →
      ∀ ds : String, parseAsAppTz ds (String.mk (fmt2 h ++ ':' :: fmt2 mi)) = none) ∧
    (∀ (y m d : Nat), y ≤ 9999 → m ≤ 99 → d ≤ 99 →
      ¬ (1 ≤ m ∧ m ≤ 12 ∧ 1 ≤ d ∧ ((d : Nat) : Int) ≤ daysInMonth (y : Int) (m : Int)) →
      ∀ ts : String,
        parseAsAppTz (String.mk (fmt4 y ++ '-' :: fmt2 m ++ '-' :: fmt2 d)) ts = none) ∧
    (∀ (ds ts : String) (t : Int), parseAsAppTz ds ts = some t →
      ∃ c mins, parseDateES ds.data = some c ∧ validCivil c.1 c.2.1 c.2.2 ∧
        parseTimeFrag ts.data = some mins ∧
        (mins ≤ 1439 → klDayOf t = daysFromCivil c.1 c.2.1 c.2.2) ∧
        (mins = 1440 → klDayOf t = daysFromCivil c.1 c.2.1 c.2.2 + 1)) := by
  refine ⟨?_, ?_, ?_, ?_, ?_⟩
  · intro y m d h mi hv hy1 hy2 hh hm
    constructor
    · simp only [parseAsAppTz]
      rw [parseDateES_fmt y m d hv hy1 hy2, parseTimeFrag_fmt h mi hh hm]
      rfl
    · simp only [klDayOf, APP_TIMEZONE_OFFSET]
      omega
  · intro y m d hv hy1 hy2
    constructor
    · simp only [parseAsAppTz]
      rw [parseDateES_fmt y m d hv hy1 hy2]
      rfl
    · simp only [klDayOf, APP_TIMEZONE_OFFSET]
      omega
  · intro h mi hh hm hbad ds
    cases hds : parseDateES ds.data with
    | none =>
      simp only [parseAsAppTz, hds]
    | some c =>
      simp only [parseAsAppTz, hds]
      rw [parseTimeFrag_reject h mi hh hm hbad]
  · intro y m d hy hm99 hd99 hbad ts
    simp only [parseAsAppTz]
    rw [parseDateES_reject y m d hy hm99 hd99 hbad]
  · intro ds ts t hp
    cases hds : parseDateES ds.data with
    | none =>
      simp only [parseAsAppTz, hds] at hp
      exact absurd hp (by simp)
    | some c =>
      cases hts : parseTimeFrag ts.data with
      | none =>
        simp only [parseAsAppTz, hds, hts] at hp
        exact absurd hp (by simp)
      | some mins =>
        obtain ⟨cy, cm, cd⟩ := c
        simp only [parseAsAppTz, hds, hts, Option.some.injEq] at hp
        have hrange := parseTimeFrag_range ts.data mins hts
        refine ⟨(cy, cm, cd), mins, rfl,
          parseDateES_valid ds.data cy cm cd hds, rfl, ?_, ?_⟩
        · intro hlt
          simp only [APP_TIMEZONE_OFFSET] at hp
          simp only [klDayOf, APP_TIMEZONE_OFFSET]
          omega
        · intro heq
          simp only [APP_TIMEZONE_OFFSET] at hp
          simp only [klDayOf, APP_TIMEZONE_OFFSET]
          omega

/-- Witness for the amended C8: the well-formed input 2025-01-01 08:30
parses to an instant on the written civil day. -/
theorem C8_parse_failfast_amended_witness :
    validCivil 2025 1 1 ∧
    parseAsAppTz
        (String.mk (fmt4 (2025 : Int).toNat ++ '-' :: fmt2 (1 : Int).toNat ++ '-' ::
          fmt2 (1 : Int).toNat))
        (String.mk (fmt2 8 ++ ':' :: fmt2 30)) =
      some (daysFromCivil 2025 1 1 * 1440 + ((8 : Int) * 60 + (30 : Int)) - 480) ∧
    klDayOf (daysFromCivil 2025 1 1 * 1440 + ((8 : Int) * 60 + (30 : Int)) - 480) =
      daysFromCivil 2025 1 1 :=
  ⟨by decide,
   (C8_parse_failfast_amended.1 2025 1 1 8 30 (by decide) (by norm_num) (by norm_num)
     (by norm_num) (by norm_num)).1,
   (C8_parse_failfast_amended.1 2025 1 1 8 30 (by decide) (by norm_num) (by norm_num)
     (by norm_num) (by norm_num)).2⟩

/-- C9 counterexample: at the minute-aligned instant 1950-01-01T00:00Z
the zone offset was +7:30, so utcToAppTz formats the pair ("1950-01-01",
"07:30"), and parseAsAppTz re-reads it at the hard-coded +08:00, giving
an instant 30 minutes earlier.  The roundtrip is therefore not the
identity on every minute-aligned instant. -/
theorem C9_roundtrip_counterexample :
    utcToAppTz (daysFromCivil 1950 1 1 * 1440) = ("1950-01-01", "07:30") ∧
    parseAsAppTz (utcToAppTz (daysFromCivil 1950 1 1 * 1440)).1
        (utcToAppTz (daysFromCivil 1950 1 1 * 1440)).2 =
      some (daysFromCivil 1950 1 1 * 1440 - 30) ∧
    some (daysFromCivil 1950 1 1 * 1440 - 30) ≠
      some (daysFromCivil 1950 1 1 * 1440) := by
  refine ⟨by decide, by decide, by decide⟩

/-- C9 amended: from the instant the zone adopted the +08:00 offset
(1982-01-01 local midnight) onward, and while the app-timezone year
stays within the four-digit YYYY rendering, converting a minute-aligned
instant to app-timezone civil form with utcToAppTz and re-combining the
pair with parseAsAppTz yields exactly the same instant; for earlier
instants the historical offsets (+7:30 and older) shift the reparse. -/
theorem C9_roundtrip (t : Int)
    (ht : daysFromCivil 1982 1 1 * 1440 - 450 ≤ t)
    (hy2 : (civilFromDays (klDayOf t)).1 ≤ 9999) :
    parseAsAppTz (utcToAppTz t).1 (utcToAppTz t).2 = some t := by
  have c1 : daysFromCivil 1901 1 1 = -25202 := by decide
  have c2 : daysFromCivil 1905 6 1 = -23590 := by decide
  have c3 : daysFromCivil 1933 1 1 = -13514 := by decide
  have c4 : daysFromCivil 1941 9 1 = -10349 := by decide
  have c5 : daysFromCivil 1942 2 16 = -10181 := by decide
  have c6 : daysFromCivil 1945 9 12 = -8877 := by decide
  have c7 : daysFromCivil 1982 1 1 = 4383 := by decide
  rw [c7] at ht
  have hoff : klOffsetAt t = 480 := by
    simp only [klOffsetAt, c1, c2, c3, c4, c5, c6, c7]
    rw [if_neg (by omega), if_neg (by omega), if_neg (by omega), if_neg (by omega),
      if_neg (by omega), if_neg (by omega), if_neg (by omega)]
  have hkl : (t + klOffsetAt t) / 1440 = klDayOf t := by
    rw [hoff]
    simp only [klDayOf, APP_TIMEZONE_OFFSET]
  have hklm : (t + klOffsetAt t) % 1440 = klMinuteOf t := by
    rw [hoff]
    simp only [klMinuteOf, APP_TIMEZONE_OFFSET]
  obtain ⟨hrt, hval⟩ := civilFromDays_spec (klDayOf t)
  have hy1 : 1000 ≤ (civilFromDays (klDayOf t)).1 := by
    by_contra hlt
    push_neg at hlt
    have hday : 4383 ≤ klDayOf t := by
      simp only [klDayOf, APP_TIMEZONE_OFFSET]
      omega
    obtain ⟨hm1, hm12, hd1, hdm⟩ := hval
    have h31 := daysInMonth_le (civilFromDays (klDayOf t)).1 (civilFromDays (klDayOf t)).2.1
    have hsmall : daysFromCivil (civilFromDays (klDayOf t)).1 (civilFromDays (klDayOf t)).2.1
        (civilFromDays (klDayOf t)).2.2 < 4383 := by
      simp only [daysFromCivil]
      split_ifs <;> omega
    omega
  have hh : (klMinuteOf t / 60).toNat ≤ 23 := by
    simp only [klMinuteOf, APP_TIMEZONE_OFFSET]
    omega
  have hm : (klMinuteOf t % 60).toNat ≤ 59 := by
    simp only [klMinuteOf, APP_TIMEZONE_OFFSET]
    omega
  simp only [utcToAppTz, klDateString, klTimeString, parseAsAppTz, hkl, hklm]
  rw [parseDateES_fmt _ _ _ hval hy1 hy2, parseTimeFrag_fmt _ _ hh hm]
  simp only [Option.some.injEq]
  rw [hrt]
  simp only [klDayOf, klMinuteOf, APP_TIMEZONE_OFFSET]
  omega

/-- Witness for the amended C9 at 2025-01-01T00:00Z. -/
theorem C9_roundtrip_witness :
    daysFromCivil 1982 1 1 * 1440 - 450 ≤ 28928160 ∧
    (civilFromDays (klDayOf 28928160)).1 ≤ 9999 ∧
    parseAsAppTz (utcToAppTz 28928160).1 (utcToAppTz 28928160).2 = some 28928160 :=
  ⟨by decide, by decide, C9_roundtrip 28928160 (by decide) (by decide)⟩

